import Mathlib

/-!
Shallow embedding of the bootstrap coordinator of the m3db storage engine
(the `storage` package's `bootstrapManager`), together with proofs about the
target-range computation and the `Bootstrap()` state machine.

Times and durations are nanosecond counts modelled as `Int`; Go's
`time.Time.Truncate` becomes `timeTruncate`.  The manager's interaction with
its collaborators (the mediator's file-ops gate, `m.bootstrap()`'s pass over
the owned namespaces) is modelled as a trace of `Event`s, and the behaviour
of the environment during one loop iteration (per-namespace bootstrap
results, an injected panic, a concurrent `Bootstrap()` call setting
`hasPending`) is an `IterBehavior` input.
-/

namespace storage

namespace xtime

/-- Half-open time window with inclusive `Start` and exclusive `End`,
modelling `xtime.Range`. -/
structure Range where
  Start : Int
  End : Int
  deriving DecidableEq, Repr

end xtime

/-- Go `time.Time.Truncate`: round `t` down to a multiple of `d`
(for `d ≤ 0` the time is returned unchanged).  `Int.fmod t d` is the
remainder of floor division, lying in `[0, d)` for `d > 0`. -/
def timeTruncate (t d : Int) : Int :=
  if d ≤ 0 then t else t - Int.fmod t d

/-- Run options handed to bootstrappers, modelling `bootstrap.RunOptions`
with its single `incremental` option. -/
structure RunOptions where
  incremental : Bool
  deriving DecidableEq, Repr

/-- Go `bootstrap.NewRunOptions()`: defaults, incremental off. -/
def NewRunOptions : RunOptions := ⟨false⟩

/-- Go `RunOptions.SetIncremental`. -/
def RunOptions.SetIncremental (r : RunOptions) (b : Bool) : RunOptions :=
  { r with incremental := b }

/-- A bootstrap target range, modelling `bootstrap.TargetRange`. -/
structure TargetRange where
  Range : xtime.Range
  RunOptions : RunOptions
  deriving DecidableEq, Repr

/-- The retention options `targetRanges` consumes:
`RetentionPeriod`, `BlockSize`, `BufferPast`, `BufferFuture`, in ns. -/
structure RetentionOptions where
  retentionPeriod : Int
  blockSize : Int
  bufferPast : Int
  bufferFuture : Int
  deriving DecidableEq, Repr

/-- Model of `bootstrapManager.targetRanges(at)`: the historical range
`[start, midPoint)` run incrementally, then the recent range
`[midPoint, cutover)` run non-incrementally. -/
def targetRanges (ropts : RetentionOptions) (now : Int) : List TargetRange :=
  let start := timeTruncate (now - ropts.retentionPeriod) ropts.blockSize
  let midPoint := timeTruncate (now - ropts.blockSize - ropts.bufferPast) ropts.blockSize
    + ropts.blockSize
  let cutover := timeTruncate (now + ropts.bufferFuture) ropts.blockSize + ropts.blockSize
  [ { Range := { Start := start, End := midPoint },
      RunOptions := NewRunOptions.SetIncremental true },
    { Range := { Start := midPoint, End := cutover },
      RunOptions := NewRunOptions.SetIncremental false } ]

/-- The manager's phase, modelling the `bootstrapState` enum. -/
inductive bootstrapState
  | bootstrapNotStarted
  | bootstrapping
  | bootstrapped
  deriving DecidableEq, Repr

/-- The mutable fields of `bootstrapManager` guarded by its mutex. -/
structure ManagerState where
  state : bootstrapState
  hasPending : Bool
  deriving DecidableEq, Repr

/-- State of a freshly constructed manager (`newBootstrapManager`):
Go zero values. -/
def initialManager : ManagerState :=
  ⟨bootstrapState.bootstrapNotStarted, false⟩

/-- Opaque namespace-level bootstrap error codes. -/
abbrev Err := Nat

/-- Observable calls the manager makes on its collaborators. -/
inductive Event
  | disableFileOps
  | enableFileOps
  | computeRanges
  | nsBootstrap (i : Nat)
  deriving DecidableEq, Repr

/-- Environment behaviour during one iteration of the `Bootstrap()` loop:
the result of `namespace.Bootstrap` for each owned namespace (`none` is a
nil error), an optional index at which that call panics, and whether a
concurrent `Bootstrap()` call sets `hasPending` during the iteration. -/
structure IterBehavior where
  nsResults : List (Option Err)
  panicAt : Option Nat
  pendingDuring : Bool
  deriving DecidableEq, Repr

/-- Result of one pass over the owned namespaces inside `m.bootstrap()`. -/
structure NsLoopResult where
  events : List Event
  errs : List Err
  panicked : Bool
  deriving DecidableEq, Repr

/-- The namespace loop of `m.bootstrap()`: every owned namespace is
bootstrapped in order, non-nil errors are added to the multi-error, and a
panic in the call at index `panicAt` propagates immediately. -/
def nsLoop : Nat → List (Option Err) → Option Nat → NsLoopResult
  | _, [], _ => ⟨[], [], false⟩
  | i, r :: rs, pAt =>
    if pAt = some i then
      ⟨[Event.nsBootstrap i], [], true⟩
    else
      let res := nsLoop (i + 1) rs pAt
      ⟨Event.nsBootstrap i :: res.events,
        (match r with
          | some e => e :: res.errs
          | none => res.errs),
        res.panicked⟩

/-- Result of one call of `m.bootstrap()`. -/
structure IterResult where
  events : List Event
  err : Option (List Err)
  panicked : Bool
  deriving DecidableEq, Repr

/-- Model of `bootstrapManager.bootstrap()`: compute the target ranges,
bootstrap every owned namespace, and return `multiErr.FinalError()`
(`none` when no namespace errored). -/
def bootstrapOnce (it : IterBehavior) : IterResult :=
  ⟨Event.computeRanges :: (nsLoop 0 it.nsResults it.panicAt).events,
    if (nsLoop 0 it.nsResults it.panicAt).errs = [] then none
      else some (nsLoop 0 it.nsResults it.panicAt).errs,
    (nsLoop 0 it.nsResults it.panicAt).panicked⟩

/-- How a `Bootstrap()` call ends: coalesced into a running bootstrap,
returned normally carrying the iteration errors collected by the outer
multi-error (`[]` is a nil return), aborted by a propagating panic, or
still looping when the supplied schedule of iteration behaviours ran out. -/
inductive Outcome
  | enqueued
  | completed (errs : List (List Err))
  | panicked
  | incomplete
  deriving DecidableEq, Repr

/-- Go `multiErr = multiErr.Add(err)` guarded by `err != nil`. -/
def addIterErr (acc : List (List Err)) : Option (List Err) → List (List Err)
  | some e => acc ++ [e]
  | none => acc

/-- Everything observable about one `Bootstrap()` call: the trace of
collaborator calls, how the call ended, the manager state when it ended,
and every manager state exposed at a lock release during the call. -/
structure CallResult where
  events : List Event
  outcome : Outcome
  final : ManagerState
  states : List ManagerState
  deriving DecidableEq, Repr

/-- States momentarily exposed when a concurrent `Bootstrap()` call enqueues
itself during one loop iteration. -/
def transientStates (it : IterBehavior) : List ManagerState :=
  if it.pendingDuring then [⟨bootstrapState.bootstrapping, true⟩] else []

/-- The loop iteration panicked inside `m.bootstrap()`: the panic propagates
out of `Bootstrap()`, leaving the phase at `bootstrapping`. -/
def panicResult (carry : Bool) (it : IterBehavior) : CallResult :=
  ⟨(bootstrapOnce it).events, Outcome.panicked,
    ⟨bootstrapState.bootstrapping, carry || it.pendingDuring⟩,
    transientStates it ++ [⟨bootstrapState.bootstrapping, carry || it.pendingDuring⟩]⟩

/-- The lock-section check saw `hasPending`: clear it and rebootstrap, so the
rest of the run is whatever the remaining loop iterations produce. -/
def contResult (it : IterBehavior) (res : CallResult) : CallResult :=
  ⟨(bootstrapOnce it).events ++ res.events, res.outcome, res.final,
    transientStates it ++ ⟨bootstrapState.bootstrapping, false⟩ :: res.states⟩

/-- The lock-section check saw no pending request: the phase is set to
`bootstrapped` and the loop exits with the accumulated multi-error. -/
def stopResult (acc : List (List Err)) (it : IterBehavior) : CallResult :=
  ⟨(bootstrapOnce it).events, Outcome.completed (addIterErr acc (bootstrapOnce it).err),
    ⟨bootstrapState.bootstrapped, false⟩,
    transientStates it ++ [⟨bootstrapState.bootstrapped, false⟩]⟩

/-- The `for { ... }` loop of `Bootstrap()`.  `carry` is `hasPending` on
entry to the current iteration; after `m.bootstrap()` the flag is inspected
under the lock: if set it is cleared and the loop continues, otherwise the
phase becomes `bootstrapped` and the loop exits.  An exhausted schedule of
iteration behaviours leaves the call still looping (`incomplete`). -/
def runLoop : Bool → List (List Err) → List IterBehavior → CallResult
  | carry, _, [] =>
    ⟨[], Outcome.incomplete, ⟨bootstrapState.bootstrapping, carry⟩,
      [⟨bootstrapState.bootstrapping, carry⟩]⟩
  | carry, acc, it :: rest =>
    if (bootstrapOnce it).panicked then
      panicResult carry it
    else if carry || it.pendingDuring then
      contResult it (runLoop false (addIterErr acc (bootstrapOnce it).err) rest)
    else
      stopResult acc it

/-- Model of `bootstrapManager.Bootstrap()`.  While `bootstrapping`, a call
only sets `hasPending` and returns `errBootstrapEnqueued`.  Otherwise the
phase becomes `bootstrapping`, file ops are disabled, the loop runs, and the
deferred `EnableFileOps` fires on every exit path of the call, panics
included; it has not yet fired when the schedule ran out mid-loop. -/
def Bootstrap (m : ManagerState) (iters : List IterBehavior) : CallResult :=
  match m.state with
  | bootstrapState.bootstrapping =>
    ⟨[], Outcome.enqueued, ⟨m.state, true⟩, [⟨m.state, true⟩]⟩
  | _ =>
    ⟨(if (runLoop m.hasPending [] iters).outcome = Outcome.incomplete then
        Event.disableFileOps :: (runLoop m.hasPending [] iters).events
      else
        Event.disableFileOps :: (runLoop m.hasPending [] iters).events
          ++ [Event.enableFileOps]),
      (runLoop m.hasPending [] iters).outcome,
      (runLoop m.hasPending [] iters).final,
      ⟨bootstrapState.bootstrapping, m.hasPending⟩ :: (runLoop m.hasPending [] iters).states⟩

/-- The namespace-level errors of one loop iteration, in namespace order
(nil results dropped), as `m.bootstrap()`'s multi-error collects them. -/
def iterErrs (it : IterBehavior) : List Err :=
  it.nsResults.filterMap id

/-- The prefix of the iteration-behaviour schedule a `Bootstrap()` run
actually consumes: it stops after the first iteration that panics or whose
lock-section check sees no pending request. -/
def consumed (carry : Bool) : List IterBehavior → List IterBehavior
  | [] => []
  | it :: rest =>
    if (bootstrapOnce it).panicked then [it]
    else if carry || it.pendingDuring then it :: consumed false rest
    else [it]

/-- The invariant tying the pending-rebootstrap flag to the phase. -/
def Inv (s : ManagerState) : Prop :=
  s.hasPending = true → s.state = bootstrapState.bootstrapping

/-- Manager states reachable from the freshly constructed manager by
`Bootstrap()` calls, including every state exposed at a lock release while a
call is in flight. -/
inductive Reachable : ManagerState → Prop
  | init : Reachable initialManager
  | step (s : ManagerState) (iters : List IterBehavior) (t : ManagerState) :
      Reachable s → t ∈ (Bootstrap s iters).states → Reachable t

/-- Every event the namespace loop emits is a namespace bootstrap call. -/
theorem nsLoop_events_mem :
    ∀ (rs : List (Option Err)) (i : Nat) (p : Option Nat),
      ∀ e ∈ (nsLoop i rs p).events, ∃ j, e = Event.nsBootstrap j := by
  intro rs
  induction rs with
  | nil =>
    intro i p e he
    simp [nsLoop] at he
  | cons r rs ih =>
    intro i p e he
    by_cases hp : p = some i
    · simp [nsLoop, hp] at he
      exact ⟨i, he⟩
    · simp only [nsLoop, if_neg hp] at he
      rcases List.mem_cons.mp he with h | h
      · exact ⟨i, h⟩
      · exact ih (i + 1) p e h

/-- Every event the run loop emits is a target-range computation or a
namespace bootstrap call; in particular the loop body never touches the
mediator's file-ops gate. -/
theorem runLoop_events_mem :
    ∀ (l : List IterBehavior) (c : Bool) (acc : List (List Err)),
      ∀ e ∈ (runLoop c acc l).events,
        e = Event.computeRanges ∨ ∃ j, e = Event.nsBootstrap j := by
  intro l
  induction l with
  | nil =>
    intro c acc e he
    simp [runLoop] at he
  | cons it rest ih =>
    intro c acc e he
    have honce : ∀ e' ∈ (bootstrapOnce it).events,
        e' = Event.computeRanges ∨ ∃ j, e' = Event.nsBootstrap j := by
      intro e' he'
      simp only [bootstrapOnce] at he'
      rcases List.mem_cons.mp he' with h | h
      · exact Or.inl h
      · exact Or.inr (nsLoop_events_mem it.nsResults 0 it.panicAt e' h)
    simp only [runLoop] at he
    split at he
    · exact honce e he
    · split at he
      · simp only [contResult] at he
        rcases List.mem_append.mp he with h | h
        · exact honce e h
        · exact ih false (addIterErr acc (bootstrapOnce it).err) e h
      · exact honce e he

/-- Neither file-ops toggle appears among the run loop's events. -/
theorem runLoop_no_fileops (l : List IterBehavior) (c : Bool)
    (acc : List (List Err)) :
    Event.disableFileOps ∉ (runLoop c acc l).events ∧
    Event.enableFileOps ∉ (runLoop c acc l).events := by
  constructor <;>
    · intro hmem
      rcases runLoop_events_mem l c acc _ hmem with h | ⟨j, h⟩ <;> simp at h

/-- A run loop that returned normally ends with the phase `bootstrapped`
and the pending flag clear. -/
theorem runLoop_completed_final :
    ∀ (l : List IterBehavior) (c : Bool) (acc errs : List (List Err)),
      (runLoop c acc l).outcome = Outcome.completed errs →
      (runLoop c acc l).final = ⟨bootstrapState.bootstrapped, false⟩ := by
  intro l
  induction l with
  | nil =>
    intro c acc errs h
    simp [runLoop] at h
  | cons it rest ih =>
    intro c acc errs h
    simp only [runLoop] at h ⊢
    by_cases hp : (bootstrapOnce it).panicked = true
    · rw [if_pos hp] at h
      simp [panicResult] at h
    · rw [if_neg hp] at h ⊢
      by_cases hc : (c || it.pendingDuring) = true
      · rw [if_pos hc] at h ⊢
        simp only [contResult] at h ⊢
        exact ih false (addIterErr acc (bootstrapOnce it).err) errs h
      · rw [if_neg hc] at h ⊢
        rfl

/-- Without an injected panic the namespace loop finishes normally. -/
theorem nsLoop_none_no_panic :
    ∀ (rs : List (Option Err)) (i : Nat), (nsLoop i rs none).panicked = false := by
  intro rs
  induction rs with
  | nil => intro i; rfl
  | cons r rs ih =>
    intro i
    simp only [nsLoop, if_neg (by simp : ¬(none : Option Nat) = some i)]
    exact ih (i + 1)

/-- When the namespace loop finishes without a panic it has collected
exactly the non-nil namespace errors, in namespace order. -/
theorem nsLoop_no_panic_errs :
    ∀ (rs : List (Option Err)) (i : Nat) (p : Option Nat),
      (nsLoop i rs p).panicked = false →
      (nsLoop i rs p).errs = rs.filterMap id := by
  intro rs
  induction rs with
  | nil => intro i p _; rfl
  | cons r rs ih =>
    intro i p h
    by_cases hp : p = some i
    · simp [nsLoop, hp] at h
    · simp only [nsLoop, if_neg hp] at h ⊢
      cases r with
      | some e => simp [List.filterMap_cons, ih (i + 1) p h]
      | none => simp [List.filterMap_cons, ih (i + 1) p h]

/-- When the namespace loop finishes without a panic it has bootstrapped
every owned namespace, in order. -/
theorem nsLoop_no_panic_events :
    ∀ (rs : List (Option Err)) (i : Nat) (p : Option Nat),
      (nsLoop i rs p).panicked = false →
      (nsLoop i rs p).events = (List.range' i rs.length).map Event.nsBootstrap := by
  intro rs
  induction rs with
  | nil => intro i p _; rfl
  | cons r rs ih =>
    intro i p h
    by_cases hp : p = some i
    · simp [nsLoop, hp] at h
    · simp only [nsLoop, if_neg hp] at h ⊢
      simp [List.range'_succ, ih (i + 1) p h]

/-- One non-panicking call of the inner `m.bootstrap()` bootstraps every
owned namespace: one target-range computation followed by one bootstrap
call per namespace, errors notwithstanding. -/
theorem bootstrapOnce_no_panic_events (it : IterBehavior)
    (h : (bootstrapOnce it).panicked = false) :
    (bootstrapOnce it).events =
      Event.computeRanges ::
        (List.range it.nsResults.length).map Event.nsBootstrap := by
  simp only [bootstrapOnce] at h ⊢
  rw [nsLoop_no_panic_events it.nsResults 0 it.panicAt h, List.range_eq_range']

/-- One non-panicking call of the inner `m.bootstrap()` returns its
multi-error's final error: nil when no namespace errored, otherwise the
list of non-nil namespace errors. -/
theorem bootstrapOnce_no_panic_err (it : IterBehavior)
    (h : (bootstrapOnce it).panicked = false) :
    (bootstrapOnce it).err =
      if iterErrs it = [] then none else some (iterErrs it) := by
  simp only [bootstrapOnce, iterErrs] at h ⊢
  rw [nsLoop_no_panic_errs it.nsResults 0 it.panicAt h]

/-- Adding an optional iteration error and flattening appends exactly the
errors the iteration produced. -/
theorem addIterErr_flatten_no_panic (acc : List (List Err)) (it : IterBehavior)
    (h : (bootstrapOnce it).panicked = false) :
    (addIterErr acc (bootstrapOnce it).err).flatten = acc.flatten ++ iterErrs it := by
  rw [bootstrapOnce_no_panic_err it h]
  by_cases he : iterErrs it = []
  · simp [addIterErr, he]
  · simp [addIterErr, if_neg he]

/-- Flattening the multi-error of a normally returning run yields every
namespace error of every consumed loop iteration, in order. -/
theorem runLoop_completed_flatten :
    ∀ (l : List IterBehavior) (c : Bool) (acc errs : List (List Err)),
      (runLoop c acc l).outcome = Outcome.completed errs →
      errs.flatten = acc.flatten ++ ((consumed c l).map iterErrs).flatten := by
  intro l
  induction l with
  | nil =>
    intro c acc errs h
    simp [runLoop] at h
  | cons it rest ih =>
    intro c acc errs h
    simp only [runLoop] at h
    simp only [consumed]
    by_cases hp : (bootstrapOnce it).panicked = true
    · rw [if_pos hp] at h
      simp [panicResult] at h
    · rw [if_neg hp] at h
      rw [if_neg hp]
      have hp' : (bootstrapOnce it).panicked = false := by
        cases hb : (bootstrapOnce it).panicked
        · rfl
        · exact absurd hb hp
      by_cases hc : (c || it.pendingDuring) = true
      · rw [if_pos hc] at h
        rw [if_pos hc]
        simp only [contResult] at h
        have := ih false (addIterErr acc (bootstrapOnce it).err) errs h
        rw [this, addIterErr_flatten_no_panic acc it hp']
        simp [List.flatten_cons, List.append_assoc]
      · rw [if_neg hc] at h
        rw [if_neg hc]
        simp only [stopResult, Outcome.completed.injEq] at h
        rw [← h, addIterErr_flatten_no_panic acc it hp']
        simp

/-- Every state exposed while the run loop executes ties the pending flag
to the `bootstrapping` phase. -/
theorem runLoop_states_inv :
    ∀ (l : List IterBehavior) (c : Bool) (acc : List (List Err))
      (s : ManagerState), s ∈ (runLoop c acc l).states → Inv s := by
  intro l
  induction l with
  | nil =>
    intro c acc s hs
    simp only [runLoop, List.mem_singleton] at hs
    subst hs
    exact fun _ => rfl
  | cons it rest ih =>
    intro c acc s hs
    have htrans : ∀ s' ∈ transientStates it, Inv s' := by
      intro s' hs'
      simp only [transientStates] at hs'
      split at hs'
      · rw [List.mem_singleton] at hs'
        subst hs'
        exact fun _ => rfl
      · simp at hs'
    simp only [runLoop] at hs
    split at hs
    · simp only [panicResult] at hs
      rcases List.mem_append.mp hs with h | h
      · exact htrans s h
      · rw [List.mem_singleton] at h
        subst h
        exact fun _ => rfl
    · split at hs
      · simp only [contResult] at hs
        rcases List.mem_append.mp hs with h | h
        · exact htrans s h
        · rcases List.mem_cons.mp h with h' | h'
          · subst h'
            exact fun _ => rfl
          · exact ih false (addIterErr acc (bootstrapOnce it).err) s h'
      · simp only [stopResult] at hs
        rcases List.mem_append.mp hs with h | h
        · exact htrans s h
        · rw [List.mem_singleton] at h
          subst h
          intro hfalse
          cases hfalse

/-- Every state exposed at a lock release during a `Bootstrap()` call ties
the pending flag to the `bootstrapping` phase. -/
theorem Bootstrap_states_inv (m : ManagerState) (iters : List IterBehavior)
    (s : ManagerState) (hs : s ∈ (Bootstrap m iters).states) : Inv s := by
  obtain ⟨st, hp⟩ := m
  cases st with
  | bootstrapping =>
    simp only [Bootstrap, List.mem_singleton] at hs
    subst hs
    exact fun _ => rfl
  | bootstrapNotStarted =>
    simp only [Bootstrap] at hs
    rcases List.mem_cons.mp hs with h | h
    · subst h
      exact fun _ => rfl
    · exact runLoop_states_inv iters hp [] s h
  | bootstrapped =>
    simp only [Bootstrap] at hs
    rcases List.mem_cons.mp hs with h | h
    · subst h
      exact fun _ => rfl
    · exact runLoop_states_inv iters hp [] s h

/-- C1: for every `now` and retention options, `targetRanges` returns exactly
two half-open ranges in order, the historical range
`[truncate(now - period), truncate(now - blockSize - bufferPast) + blockSize)`
run incrementally followed by a recent range starting at the historical end
and ending at `truncate(now + bufferFuture) + blockSize` run
non-incrementally, where for a positive block size the truncation is
`floor(t / blockSize) * blockSize`; at `now = 1000000` with
`period = 10, blockSize = 2, bufferPast = 1, bufferFuture = 1` this is
historical `[999990, 999998)` and recent `[999998, 1000002)`. -/
theorem targetRanges_spec :
    (∀ t d : Int, 0 < d → timeTruncate t d = d * Int.fdiv t d) ∧
    (∀ (ropts : RetentionOptions) (now : Int),
      targetRanges ropts now =
        [ ⟨⟨timeTruncate (now - ropts.retentionPeriod) ropts.blockSize,
            timeTruncate (now - ropts.blockSize - ropts.bufferPast) ropts.blockSize
              + ropts.blockSize⟩, ⟨true⟩⟩,
          ⟨⟨timeTruncate (now - ropts.blockSize - ropts.bufferPast) ropts.blockSize
              + ropts.blockSize,
            timeTruncate (now + ropts.bufferFuture) ropts.blockSize
              + ropts.blockSize⟩, ⟨false⟩⟩ ]) ∧
    targetRanges ⟨10, 2, 1, 1⟩ 1000000 =
      [⟨⟨999990, 999998⟩, ⟨true⟩⟩, ⟨⟨999998, 1000002⟩, ⟨false⟩⟩] := by
  refine ⟨?_, fun ropts now => rfl, by decide⟩
  intro t d hd
  unfold timeTruncate
  rw [if_neg (by omega)]
  have h := Int.fmod_add_fdiv t d
  linarith

/-- Witness for C1 at a concrete input: block size 2 is positive and
truncation of 7 by 2 is floor division. -/
theorem targetRanges_spec_witness :
    (0 : Int) < 2 ∧ timeTruncate 7 2 = 2 * Int.fdiv 7 2 :=
  ⟨by decide, targetRanges_spec.1 7 2 (by decide)⟩

/-- C2 fails on the code: with `period = 0, blockSize = 2, bufferPast = 1,
bufferFuture = 1` and `now = 10` the premise `now - period ≥
now - blockSize - bufferPast` holds, yet `targetRanges` still emits the
historical range, and it is inverted (`[10, 8)`), not omitted. -/
theorem targetRanges_omission_cex :
    ((10 : Int) - 0 ≥ 10 - 2 - 1) ∧
    targetRanges ⟨0, 2, 1, 1⟩ 10 =
      [⟨⟨10, 8⟩, ⟨true⟩⟩, ⟨⟨8, 12⟩, ⟨false⟩⟩] ∧
    (targetRanges ⟨0, 2, 1, 1⟩ 10).length = 2 := by
  decide

/-- C2 amended: when `now - period ≥ now - blockSize - bufferPast` the
historical range is NOT omitted: `targetRanges` still returns both ranges,
with the (possibly empty or inverted) historical range first. -/
theorem targetRanges_emits_historical (ropts : RetentionOptions) (now : Int)
    (_h : now - ropts.retentionPeriod ≥ now - ropts.blockSize - ropts.bufferPast) :
    (targetRanges ropts now).length = 2 ∧
    (targetRanges ropts now).head? =
      some ⟨⟨timeTruncate (now - ropts.retentionPeriod) ropts.blockSize,
             timeTruncate (now - ropts.blockSize - ropts.bufferPast) ropts.blockSize
               + ropts.blockSize⟩, ⟨true⟩⟩ :=
  ⟨rfl, rfl⟩

/-- Witness for the amended C2 at the counterexample's input. -/
theorem targetRanges_emits_historical_witness :
    ((10 : Int) - 0 ≥ 10 - 2 - 1) ∧
    (targetRanges ⟨0, 2, 1, 1⟩ 10).length = 2 ∧
    (targetRanges ⟨0, 2, 1, 1⟩ 10).head? = some ⟨⟨10, 8⟩, ⟨true⟩⟩ := by
  have h := targetRanges_emits_historical ⟨0, 2, 1, 1⟩ 10 (by decide)
  exact ⟨by decide, h.1, by rw [h.2]; decide⟩

/-- C3: every `Bootstrap()` call that begins a run (manager not already
`bootstrapping`) and exits (normally or by panic) calls `DisableFileOps`
exactly once, as the very first collaborator call and hence before any
namespace bootstrap, and calls `EnableFileOps` exactly once, as the very
last collaborator call after the final rebootstrap iteration, on every exit
path including a panic raised inside the run. -/
theorem Bootstrap_fileOps_paired (m : ManagerState) (iters : List IterBehavior)
    (h1 : m.state ≠ bootstrapState.bootstrapping)
    (h2 : (Bootstrap m iters).outcome ≠ Outcome.incomplete) :
    ((Bootstrap m iters).events).count Event.disableFileOps = 1 ∧
    ((Bootstrap m iters).events).count Event.enableFileOps = 1 ∧
    ((Bootstrap m iters).events).head? = some Event.disableFileOps ∧
    ((Bootstrap m iters).events).getLast? = some Event.enableFileOps := by
  obtain ⟨st, hp⟩ := m
  have hd := (runLoop_no_fileops iters hp []).1
  have he := (runLoop_no_fileops iters hp []).2
  cases st with
  | bootstrapping => exact absurd rfl h1
  | bootstrapNotStarted =>
    simp only [Bootstrap] at h2 ⊢
    rw [if_neg h2]
    refine ⟨?_, ?_, rfl, ?_⟩
    · simp [List.count_cons, List.count_append, List.count_eq_zero.mpr hd]
    · simp [List.count_cons, List.count_append, List.count_eq_zero.mpr he]
    · rw [List.getLast?_concat]
  | bootstrapped =>
    simp only [Bootstrap] at h2 ⊢
    rw [if_neg h2]
    refine ⟨?_, ?_, rfl, ?_⟩
    · simp [List.count_cons, List.count_append, List.count_eq_zero.mpr hd]
    · simp [List.count_cons, List.count_append, List.count_eq_zero.mpr he]
    · rw [List.getLast?_concat]

/-- Witness for C3 on a run whose single iteration panics inside the first
namespace bootstrap: the file-ops pair still brackets the whole run. -/
theorem Bootstrap_fileOps_paired_witness :
    initialManager.state ≠ bootstrapState.bootstrapping ∧
    (Bootstrap initialManager [⟨[none], some 0, false⟩]).outcome ≠
      Outcome.incomplete ∧
    (((Bootstrap initialManager [⟨[none], some 0, false⟩]).events).count
        Event.disableFileOps = 1 ∧
      ((Bootstrap initialManager [⟨[none], some 0, false⟩]).events).count
        Event.enableFileOps = 1 ∧
      ((Bootstrap initialManager [⟨[none], some 0, false⟩]).events).head? =
        some Event.disableFileOps ∧
      ((Bootstrap initialManager [⟨[none], some 0, false⟩]).events).getLast? =
        some Event.enableFileOps) :=
  ⟨by decide, by decide,
    Bootstrap_fileOps_paired initialManager [⟨[none], some 0, false⟩]
      (by decide) (by decide)⟩

/-- C4: in every manager state reachable by `Bootstrap()` steps from the
initial state, including every state exposed at a lock release while a call
is in flight, a set pending flag implies the phase is `bootstrapping`. -/
theorem reachable_hasPending_bootstrapping (s : ManagerState)
    (h : Reachable s) :
    s.hasPending = true → s.state = bootstrapState.bootstrapping := by
  induction h with
  | init => intro hp; cases hp
  | step s iters t _ hmem _ => exact Bootstrap_states_inv s iters t hmem

/-- Witness for C4 at the reachable state with the pending flag set that a
concurrent enqueue exposes during a run. -/
theorem reachable_hasPending_bootstrapping_witness :
    (⟨bootstrapState.bootstrapping, true⟩ : ManagerState).state =
      bootstrapState.bootstrapping :=
  reachable_hasPending_bootstrapping ⟨bootstrapState.bootstrapping, true⟩
    (Reachable.step initialManager [⟨[], none, true⟩]
      ⟨bootstrapState.bootstrapping, true⟩ Reachable.init (by decide))
    rfl

/-- C5: a `Bootstrap()` call on a manager whose phase is `bootstrapping`
only sets `hasPending`, returns the `errBootstrapEnqueued` signal, starts
no run (no collaborator call at all, so no namespace bootstrap), and leaves
the phase unchanged. -/
theorem Bootstrap_enqueued_spec (m : ManagerState) (iters : List IterBehavior)
    (h : m.state = bootstrapState.bootstrapping) :
    Bootstrap m iters =
      ⟨[], Outcome.enqueued, ⟨bootstrapState.bootstrapping, true⟩,
        [⟨bootstrapState.bootstrapping, true⟩]⟩ := by
  obtain ⟨st, hp⟩ := m
  have h' : st = bootstrapState.bootstrapping := h
  subst h'
  rfl

/-- Witness for C5 on a concrete mid-run manager state. -/
theorem Bootstrap_enqueued_spec_witness :
    Bootstrap ⟨bootstrapState.bootstrapping, false⟩ [⟨[some 1], none, false⟩] =
      ⟨[], Outcome.enqueued, ⟨bootstrapState.bootstrapping, true⟩,
        [⟨bootstrapState.bootstrapping, true⟩]⟩ :=
  Bootstrap_enqueued_spec ⟨bootstrapState.bootstrapping, false⟩
    [⟨[some 1], none, false⟩] rfl

/-- C6: every run-loop iteration ends with the lock-section inspection of
`hasPending`: when the flag is up it is cleared (the next iteration starts
with it down) and the full per-namespace bootstrap runs again; when it is
down the phase is set to `bootstrapped` and the loop exits, so a
non-enqueued `Bootstrap()` call that returns normally ends with phase
`bootstrapped` and `hasPending` clear. -/
theorem Bootstrap_pending_check :
    (∀ (carry : Bool) (acc : List (List Err)) (it : IterBehavior)
        (rest : List IterBehavior),
      (bootstrapOnce it).panicked = false → (carry || it.pendingDuring) = true →
        runLoop carry acc (it :: rest) =
          contResult it (runLoop false (addIterErr acc (bootstrapOnce it).err) rest)) ∧
    (∀ (carry : Bool) (acc : List (List Err)) (it : IterBehavior)
        (rest : List IterBehavior),
      (bootstrapOnce it).panicked = false → (carry || it.pendingDuring) = false →
        runLoop carry acc (it :: rest) =
          ⟨(bootstrapOnce it).events,
            Outcome.completed (addIterErr acc (bootstrapOnce it).err),
            ⟨bootstrapState.bootstrapped, false⟩,
            transientStates it ++ [⟨bootstrapState.bootstrapped, false⟩]⟩) ∧
    (∀ (m : ManagerState) (iters : List IterBehavior) (errs : List (List Err)),
      m.state ≠ bootstrapState.bootstrapping →
      (Bootstrap m iters).outcome = Outcome.completed errs →
        (Bootstrap m iters).final = ⟨bootstrapState.bootstrapped, false⟩) := by
  refine ⟨?_, ?_, ?_⟩
  · intro carry acc it rest h1 h2
    simp only [runLoop]
    rw [if_neg (by simp [h1]), if_pos h2]
  · intro carry acc it rest h1 h2
    simp only [runLoop]
    rw [if_neg (by simp [h1]), if_neg (by simp [h2])]
    rfl
  · intro m iters errs h1 h2
    obtain ⟨st, hp⟩ := m
    cases st with
    | bootstrapping => exact absurd rfl h1
    | bootstrapNotStarted =>
      simp only [Bootstrap] at h2 ⊢
      exact runLoop_completed_final iters hp [] errs h2
    | bootstrapped =>
      simp only [Bootstrap] at h2 ⊢
      exact runLoop_completed_final iters hp [] errs h2

/-- Witness for C6: one rebootstrap continuation, one loop exit, and one
completed call ending at phase `bootstrapped` with the flag clear. -/
theorem Bootstrap_pending_check_witness :
    runLoop true [] [⟨[], none, false⟩] =
      contResult ⟨[], none, false⟩
        (runLoop false (addIterErr [] (bootstrapOnce ⟨[], none, false⟩).err) []) ∧
    runLoop false [] [⟨[], none, false⟩] =
      ⟨(bootstrapOnce ⟨[], none, false⟩).events,
        Outcome.completed (addIterErr [] (bootstrapOnce ⟨[], none, false⟩).err),
        ⟨bootstrapState.bootstrapped, false⟩,
        transientStates ⟨[], none, false⟩ ++ [⟨bootstrapState.bootstrapped, false⟩]⟩ ∧
    (Bootstrap initialManager [⟨[some 5], none, false⟩]).final =
      ⟨bootstrapState.bootstrapped, false⟩ :=
  ⟨Bootstrap_pending_check.1 true [] ⟨[], none, false⟩ [] (by decide) (by decide),
    Bootstrap_pending_check.2.1 false [] ⟨[], none, false⟩ [] (by decide) (by decide),
    Bootstrap_pending_check.2.2 initialManager [⟨[some 5], none, false⟩] [[5]]
      (by decide) (by decide)⟩

/-- C7: a non-panicking iteration of the inner `m.bootstrap()` invokes
`namespace.Bootstrap` on every owned namespace in order regardless of
earlier errors, its per-iteration multi-error collects exactly the non-nil
namespace errors, and a normally returning `Bootstrap()` call returns one
aggregate whose flattening is every namespace error of every consumed loop
iteration, in order (the empty aggregate being the nil return). -/
theorem Bootstrap_error_aggregation :
    (∀ it : IterBehavior, (bootstrapOnce it).panicked = false →
      (bootstrapOnce it).events =
        Event.computeRanges ::
          (List.range it.nsResults.length).map Event.nsBootstrap) ∧
    (∀ it : IterBehavior, (bootstrapOnce it).panicked = false →
      (bootstrapOnce it).err =
        if iterErrs it = [] then none else some (iterErrs it)) ∧
    (∀ (m : ManagerState) (iters : List IterBehavior) (errs : List (List Err)),
      m.state ≠ bootstrapState.bootstrapping →
      (Bootstrap m iters).outcome = Outcome.completed errs →
      errs.flatten = ((consumed m.hasPending iters).map iterErrs).flatten) := by
  refine ⟨bootstrapOnce_no_panic_events, bootstrapOnce_no_panic_err, ?_⟩
  intro m iters errs h1 h2
  obtain ⟨st, hp⟩ := m
  cases st with
  | bootstrapping => exact absurd rfl h1
  | bootstrapNotStarted =>
    simp only [Bootstrap] at h2
    simpa using runLoop_completed_flatten iters hp [] errs h2
  | bootstrapped =>
    simp only [Bootstrap] at h2
    simpa using runLoop_completed_flatten iters hp [] errs h2

/-- Witness for C7: three namespaces with an error in the first and third,
and a two-iteration run (one rebootstrap) collecting both errors. -/
theorem Bootstrap_error_aggregation_witness :
    (bootstrapOnce ⟨[some 1, none, some 2], none, false⟩).events =
      Event.computeRanges :: (List.range 3).map Event.nsBootstrap ∧
    (bootstrapOnce ⟨[some 1, none, some 2], none, false⟩).err = some [1, 2] ∧
    ([[1], [2]] : List (List Err)).flatten =
      ((consumed false [⟨[some 1], none, true⟩, ⟨[some 2], none, false⟩]).map
        iterErrs).flatten := by
  refine ⟨?_, ?_, ?_⟩
  · exact Bootstrap_error_aggregation.1 ⟨[some 1, none, some 2], none, false⟩ (by decide)
  · rw [Bootstrap_error_aggregation.2.1 ⟨[some 1, none, some 2], none, false⟩ (by decide)]
    decide
  · exact Bootstrap_error_aggregation.2.2 ⟨bootstrapState.bootstrapped, false⟩
      [⟨[some 1], none, true⟩, ⟨[some 2], none, false⟩] [[1], [2]]
      (by decide) (by decide)

/-- C8: calling `Bootstrap()` on an already-bootstrapped manager with no
concurrent call and no pending request runs the per-namespace pipeline
exactly once (one target-range computation, one bootstrap call per owned
namespace, bracketed by the file-ops pair) and returns with the phase again
`bootstrapped`. -/
theorem Bootstrap_rerun_idempotent (it : IterBehavior)
    (h1 : it.pendingDuring = false) (h2 : it.panicAt = none) :
    (Bootstrap ⟨bootstrapState.bootstrapped, false⟩ [it]).final =
      ⟨bootstrapState.bootstrapped, false⟩ ∧
    (Bootstrap ⟨bootstrapState.bootstrapped, false⟩ [it]).events =
      Event.disableFileOps :: Event.computeRanges ::
        ((List.range it.nsResults.length).map Event.nsBootstrap
          ++ [Event.enableFileOps]) ∧
    (Bootstrap ⟨bootstrapState.bootstrapped, false⟩ [it]).outcome =
      Outcome.completed (addIterErr [] (bootstrapOnce it).err) := by
  have hp : (bootstrapOnce it).panicked = false := by
    simp only [bootstrapOnce]
    rw [h2]
    exact nsLoop_none_no_panic it.nsResults 0
  have hrl : runLoop false [] [it] = stopResult [] it := by
    simp only [runLoop]
    rw [if_neg (by simp [hp]), if_neg (by simp [h1])]
  refine ⟨?_, ?_, ?_⟩
  · simp only [Bootstrap, hrl]
    rfl
  · simp only [Bootstrap, hrl]
    rw [if_neg (by simp [stopResult])]
    simp only [stopResult, bootstrapOnce_no_panic_events it hp]
    simp
  · simp only [Bootstrap, hrl]
    rfl

/-- Witness for C8 with one owned namespace whose bootstrap errors. -/
theorem Bootstrap_rerun_idempotent_witness :
    ((⟨[some 4], none, false⟩ : IterBehavior).pendingDuring = false) ∧
    ((⟨[some 4], none, false⟩ : IterBehavior).panicAt = none) ∧
    ((Bootstrap ⟨bootstrapState.bootstrapped, false⟩ [⟨[some 4], none, false⟩]).final =
        ⟨bootstrapState.bootstrapped, false⟩ ∧
      (Bootstrap ⟨bootstrapState.bootstrapped, false⟩ [⟨[some 4], none, false⟩]).events =
        Event.disableFileOps :: Event.computeRanges ::
          ((List.range (⟨[some 4], none, false⟩ : IterBehavior).nsResults.length).map
              Event.nsBootstrap ++ [Event.enableFileOps]) ∧
      (Bootstrap ⟨bootstrapState.bootstrapped, false⟩ [⟨[some 4], none, false⟩]).outcome =
        Outcome.completed
          (addIterErr [] (bootstrapOnce ⟨[some 4], none, false⟩).err)) :=
  ⟨rfl, rfl, Bootstrap_rerun_idempotent ⟨[some 4], none, false⟩ rfl rfl⟩

/-- C9: a `Bootstrap()` call that begins a run and returns normally leaves
the phase at `bootstrapped` (with the flag clear) whatever the collected
multi-error is: the transition does not depend on the error accumulator. -/
theorem Bootstrap_completes_despite_errors (m : ManagerState)
    (iters : List IterBehavior) (errs : List (List Err))
    (h1 : m.state ≠ bootstrapState.bootstrapping)
    (h2 : (Bootstrap m iters).outcome = Outcome.completed errs) :
    (Bootstrap m iters).final = ⟨bootstrapState.bootstrapped, false⟩ := by
  obtain ⟨st, hp⟩ := m
  cases st with
  | bootstrapping => exact absurd rfl h1
  | bootstrapNotStarted =>
    simp only [Bootstrap] at h2 ⊢
    exact runLoop_completed_final iters hp [] errs h2
  | bootstrapped =>
    simp only [Bootstrap] at h2 ⊢
    exact runLoop_completed_final iters hp [] errs h2

/-- Witness for C9 on a run whose only namespace bootstrap fails: the call
returns the non-nil aggregate `[[7]]` yet the phase is `bootstrapped`. -/
theorem Bootstrap_completes_despite_errors_witness :
    initialManager.state ≠ bootstrapState.bootstrapping ∧
    (Bootstrap initialManager [⟨[some 7], none, false⟩]).outcome =
      Outcome.completed [[7]] ∧
    (Bootstrap initialManager [⟨[some 7], none, false⟩]).final =
      ⟨bootstrapState.bootstrapped, false⟩ :=
  ⟨by decide, by decide,
    Bootstrap_completes_despite_errors initialManager [⟨[some 7], none, false⟩]
      [[7]] (by decide) (by decide)⟩

/-- C10: on the enqueued path (phase already `bootstrapping`) the only state
change is raising `hasPending`: the phase is unchanged and the event trace
is empty, so neither file-ops toggle is called, no target-range computation
happens, and no namespace bootstrap occurs. -/
theorem Bootstrap_enqueued_frame (m : ManagerState) (iters : List IterBehavior)
    (h : m.state = bootstrapState.bootstrapping) :
    (Bootstrap m iters).final.state = m.state ∧
    (Bootstrap m iters).final.hasPending = true ∧
    (Bootstrap m iters).events = [] := by
  obtain ⟨st, hp⟩ := m
  have h' : st = bootstrapState.bootstrapping := h
  subst h'
  exact ⟨rfl, rfl, rfl⟩

/-- Witness for C10 on a concrete mid-run manager state with a non-empty
schedule that the enqueued path never touches. -/
theorem Bootstrap_enqueued_frame_witness :
    (Bootstrap ⟨bootstrapState.bootstrapping, false⟩
        [⟨[some 9], none, false⟩]).final.state = bootstrapState.bootstrapping ∧
    (Bootstrap ⟨bootstrapState.bootstrapping, false⟩
        [⟨[some 9], none, false⟩]).final.hasPending = true ∧
    (Bootstrap ⟨bootstrapState.bootstrapping, false⟩
        [⟨[some 9], none, false⟩]).events = [] :=
  Bootstrap_enqueued_frame ⟨bootstrapState.bootstrapping, false⟩
    [⟨[some 9], none, false⟩] rfl

end storage
